import Mathlib

/-!
Verification of the concurrent download engine in
`courseradownloader/casyncio.py` (classes `FileDownloader`, `Downloader`,
and the `downloader_info` progress coroutine).

Strings are modelled as `List Char`.  Python library helpers used by the
program (`str.split` with a one-character separator, `str.strip`,
`str.isdigit`, `int()` on digit strings, `urllib.parse.unquote`) are
modelled for the ASCII inputs the program handles.
-/

/-- Python `s.split(sep)` for a single-character separator `sep`:
splits on every occurrence, keeping empty segments, and returns `[""]`
for the empty string. -/
def splitOnChar (sep : Char) : List Char → List (List Char)
  | [] => [[]]
  | c :: rest =>
    match splitOnChar sep rest with
    | [] => [[]]
    | g :: gs => if c = sep then [] :: g :: gs else (c :: g) :: gs

/-- Python whitespace characters removed by `str.strip()` with no argument. -/
def pyIsSpace (c : Char) : Bool :=
  c = ' ' || c = '\t' || c = '\n' || c = '\r' ||
    c = Char.ofNat 11 || c = Char.ofNat 12

/-- Strip the characters satisfying `p` from both ends of a string
(Python `str.strip`). -/
def stripEnds (p : Char → Bool) (s : List Char) : List Char :=
  ((s.dropWhile p).reverse.dropWhile p).reverse

/-- Python `s.strip()` (whitespace). -/
def pyStrip (s : List Char) : List Char := stripEnds pyIsSpace s

/-- Characters removed by the program's `strip("\"\'")` call. -/
def isQuoteChar (c : Char) : Bool := c = '"' || c = '\''

/-- Value of a hexadecimal digit, if `c` is one. -/
def hexDigitVal (c : Char) : Option Nat :=
  if decide ('0' ≤ c) && decide (c ≤ '9') then some (c.toNat - 48)
  else if decide ('a' ≤ c) && decide (c ≤ 'f') then some (c.toNat - 87)
  else if decide ('A' ≤ c) && decide (c ≤ 'F') then some (c.toNat - 55)
  else none

/-- Model of `urllib.parse.unquote` for single-byte percent escapes:
a `%` followed by two hexadecimal digits decodes to the character with
that code; an invalid escape is left verbatim.  (Multi-byte UTF-8
escape sequences are outside the inputs this program handles.) -/
def unquoteGo : Nat → List Char → List Char
  | _, [] => []
  | 0, s => s
  | fuel + 1, '%' :: a :: b :: rest =>
    match hexDigitVal a, hexDigitVal b with
    | some x, some y => Char.ofNat (16 * x + y) :: unquoteGo fuel rest
    | _, _ => '%' :: unquoteGo fuel (a :: b :: rest)
  | fuel + 1, '%' :: rest => '%' :: unquoteGo fuel rest
  | fuel + 1, c :: rest => c :: unquoteGo fuel rest

/-- Model of `urllib.parse.unquote` for single-byte percent escapes
(see `unquoteGo`; the fuel argument only forces structural recursion and
is always sufficient). -/
def unquote (s : List Char) : List Char := unquoteGo s.length s

/-- Python `str.isdigit` restricted to ASCII decimal digits (true on a
non-empty all-digit string). -/
def str_isdigit (s : List Char) : Bool :=
  !s.isEmpty && s.all (fun c => decide ('0' ≤ c) && decide (c ≤ '9'))

/-- Python `int()` on a decimal digit string. -/
def str_toNat (s : List Char) : Nat :=
  s.foldl (fun a c => a * 10 + (c.toNat - 48)) 0

/-- Embedding of `FileDownloader.check_filename` (casyncio.py lines 167-175).
Returns `true` when the file must be downloaded and `false` when it is
skipped.  `fileExists` and `fileSize` stand for `os.path.exists` and
`os.path.getsize` on the destination path; `content_length` is the
optional `Content-Length` header string. -/
def check_filename (fileExists : Bool) (fileSize : Nat)
    (content_length : Option (List Char)) : Bool :=
  if !fileExists then true
  else
    match content_length with
    | none => false
    | some cl => if !str_isdigit cl then true else fileSize != str_toNat cl

/-- The header fields of one probe response observed by
`FileDownloader._get_file_data` / `_get_file_name`. -/
structure ProbeResponse where
  status : Nat
  location : Option (List Char)
  contentDisposition : Option (List Char)
  contentLength : Option (List Char)
deriving DecidableEq

/-- Outcome of `FileDownloader._get_file_name`.

* `resolved fn cl url`: the method returned `(filename, content_length)`;
  `url` is the final value of `self.url` (used by the subsequent body GET).
* `noFile url`: the method returned `None` because `self.url` ends in `/`.
* `probeFailed`: `_get_file_data` returned `None` (an exception was caught
  and logged), so `_get_file_name` returned `None`.
* `crashed`: an unhandled exception escaped `_get_file_name`: either
  `IndexError` from `content_disposition.split(";")[1]` when the header has
  no `;`, or the `TypeError`/`AttributeError` raised at casyncio.py
  lines 215-216, where `posixpath.basename` is applied to the whole
  `urllib.parse.urlsplit(self.url)` result (a `SplitResult` tuple) instead
  of its `path` component, so the URL-basename fallback always raises. -/
inductive ResolveOutcome where
  | resolved (filename : List Char) (contentLength : Option (List Char))
      (finalUrl : List Char)
  | noFile (finalUrl : List Char)
  | probeFailed
  | crashed
deriving DecidableEq

/-- Filename extraction from a `Content-Disposition` header value
(casyncio.py lines 207-210):
`unquote(cd.split(";")[1].strip().split("=")[-1]).strip("\"\'")`.
Returns `none` when `split(";")` yields fewer than two segments
(`IndexError` in the source). -/
def parse_cd (cd : List Char) : Option (List Char) :=
  match (splitOnChar ';' cd).get? 1 with
  | none => none
  | some seg =>
    some (stripEnds isQuoteChar
      (unquote ((splitOnChar '=' (pyStrip seg)).getLastD [])))

/-- Handling of the final (no `Location`) probe response in
`FileDownloader._get_file_name` (casyncio.py lines 205-217). -/
def finish_resolve (url : List Char) (r : ProbeResponse) : ResolveOutcome :=
  match r.contentDisposition with
  | some cd =>
    match parse_cd cd with
    | some fn => ResolveOutcome.resolved fn r.contentLength url
    | none => ResolveOutcome.crashed
  | none =>
    if url.getLast? = some '/' then ResolveOutcome.noFile url
    else ResolveOutcome.crashed

/-- Embedding of `FileDownloader._get_file_name` (casyncio.py lines 196-217), with the
successive probe requests modelled by an oracle list: the `i`-th element
is what the `i`-th call to `_get_file_data` yields (`none` when that call
caught an exception and returned `None`).  Note that `_get_file_data`
returns `response.headers` even when `response.status >= 400` (lines
184-187 log the error but return the headers all the same), so the status
plays no part in resolution. -/
def get_file_name (url : List Char) :
    List (Option ProbeResponse) → ResolveOutcome
  | [] => ResolveOutcome.probeFailed
  | none :: _ => ResolveOutcome.probeFailed
  | some r :: rest =>
    match r.location with
    | some loc => get_file_name loc rest
    | none => finish_resolve url r

/-- Final URL after following the `Location` headers of `hops` starting
from `url` (the successive values of `self.url`). -/
def chainUrl (url : List Char) (hops : List ProbeResponse) : List Char :=
  hops.foldl (fun u r => r.location.getD u) url

/-- How the response body stream ends in `FileDownloader._download_file`:
`eofData` models `response.content.read` returning an empty chunk,
`eofStream` models the `aiohttp.EofStream` exception raised by the next
read, and `failure` models any other exception raised by the next read. -/
inductive StreamEnd where
  | eofData
  | eofStream
  | failure
deriving DecidableEq

/-- Observable actions of the streamer loop: a completed `self.fl.write`
of `n` bytes, and a `ProcessMessage n` sent to the info coroutine. -/
inductive StreamAct where
  | write (n : Nat)
  | emit (n : Nat)
deriving DecidableEq

/-- The chunk loop of `FileDownloader._download_file` (casyncio.py lines
258-272).  `chunks` is the oracle of successive non-empty reads before the
stream ends as described by `ending`; `size` and `current` are the
accumulator variables `size` and `current_size`.  Returns the value
returned by the method (`none` models falling through to the implicit
`return None` after a generic exception is logged) together with the
trace of writes and sent messages. -/
def download_loop (ending : StreamEnd) :
    List (List Nat) → Nat → Nat → Option Nat × List StreamAct
  | [], size, current =>
    match ending with
    | StreamEnd.failure => (none, [])
    | _ => (some size, [StreamAct.emit current])
  | c :: cs, size, current =>
    if c.isEmpty then (some size, [StreamAct.emit current])
    else
      let r := download_loop ending cs (size + c.length) c.length
      (r.1, StreamAct.write c.length :: StreamAct.emit c.length :: r.2)

/-- Embedding of `FileDownloader._download_file` (casyncio.py lines 246-280): `status`
is the status of the body GET; on `status >= 400` the method logs and
returns `None` without reading the body. -/
def download_file (status : Nat) (ending : StreamEnd)
    (chunks : List (List Nat)) : Option Nat × List StreamAct :=
  if 400 ≤ status then (none, [])
  else download_loop ending chunks 0 0

/-- Messages of the progress protocol (`ProcessMessage`, `SkippedMessage`,
`FinishedMessage`, `DoneMessage`, `WheelMessage`, `InitialMessage` in
casyncio.py lines 20-25). -/
inductive Message where
  | process (size : Nat)
  | skipped (filename : List Char)
  | finished (filename : List Char) (size : Nat)
  | doneMsg (size : Nat)
  | wheel (shape : Char)
  | initialMsg (number : Nat)
deriving DecidableEq

/-- The `ProcessMessage`s produced by a streamer trace (each `emit n`
in the trace is a `send_message(..., ProcessMessage, n)`). -/
def actionMsgs (acts : List StreamAct) : List Message :=
  acts.filterMap fun a =>
    match a with
    | StreamAct.emit n => some (Message.process n)
    | StreamAct.write _ => none

/-- One run of `FileDownloader.start` (casyncio.py lines 219-244),
described by its environment: the probe oracle, the destination file
state, whether `_open_file` succeeds, and the body GET behaviour. -/
structure TaskInput where
  url : List Char
  probes : List (Option ProbeResponse)
  fileExists : Bool
  fileSize : Nat
  openOk : Bool
  dlStatus : Nat
  ending : StreamEnd
  chunks : List (List Nat)

/-- The sequence of messages `FileDownloader.start` sends to the info
coroutine in one run (casyncio.py lines 219-244): nothing when resolution
yields no filename (or raises), one `SkippedMessage` when the skip check
says skip, the streamer's `ProcessMessage`s, and a final
`FinishedMessage` exactly when `_download_file` returned a truthy
(non-`None`, nonzero) byte count. -/
def task_events (inp : TaskInput) : List Message :=
  match get_file_name inp.url inp.probes with
  | ResolveOutcome.resolved fn cl _ =>
    if check_filename inp.fileExists inp.fileSize cl = false then
      [Message.skipped fn]
    else if inp.openOk = false then []
    else
      let r := download_file inp.dlStatus inp.ending inp.chunks
      actionMsgs r.2 ++
        (match r.1 with
         | some b => if b = 0 then [] else [Message.finished fn b]
         | none => [])
  | _ => []

/-- Terminal progress events of a task: `SkippedMessage` or
`FinishedMessage`. -/
def isTerminal : Message → Bool
  | Message.skipped _ => true
  | Message.finished _ _ => true
  | _ => false

/-- The `FinishedMessage`s in a message list. -/
def finishedMsgs (ms : List Message) : List Message :=
  ms.filter fun m =>
    match m with
    | Message.finished _ _ => true
    | _ => false

/-- Sum of the chunk sizes of a stream. -/
def chunksSum (cs : List (List Nat)) : Nat := (cs.map List.length).sum

/-- Size of the last chunk of a stream (`0` when there is none): the
final value of the loop variable `current_size`. -/
def lastLen (cs : List (List Nat)) : Nat :=
  ((cs.getLast?).map List.length).getD 0

/-- Write/emit pair trace of the streamer loop: for each chunk, the
write of the chunk followed by the progress message for it. -/
def chunkPairs (cs : List (List Nat)) : List StreamAct :=
  (cs.map fun c => [StreamAct.write c.length, StreamAct.emit c.length]).flatten

/-- Phase of one download task with respect to the Capacity Gate
(`with (yield from self.sem):` in `FileDownloader.start`): a task is
`pending` before acquiring the semaphore, `resolving` then `downloading`
while it holds it, and `released` after the `with` block exits. -/
inductive TaskPhase where
  | pending
  | resolving
  | downloading
  | released
deriving DecidableEq

/-- A task holds a Capacity Gate lease exactly in the `resolving` and
`downloading` phases. -/
def holdsLease : TaskPhase → Bool
  | TaskPhase.resolving => true
  | TaskPhase.downloading => true
  | _ => false

/-- State of the `asyncio.Semaphore(concurrency)` created in
`Downloader.prepare` (casyncio.py line 393) together with the phases of
the launched tasks: `avail` is the semaphore's internal counter. -/
structure GateState where
  avail : Nat
  tasks : List TaskPhase
deriving DecidableEq

/-- Interleaving steps of the task pool: a task may acquire the semaphore
only when the counter is positive (`acquire` decrements it), may move
from resolving to downloading without touching the semaphore, and
releases the semaphore exactly once when its `with` block exits, from
either held phase (`FileDownloader.start` releases on every exit path). -/
inductive GateStep : GateState → GateState → Prop where
  | acquire (s : GateState) (i : Nat)
      (hp : s.tasks.get? i = some TaskPhase.pending) (ha : 0 < s.avail) :
      GateStep s ⟨s.avail - 1, s.tasks.set i TaskPhase.resolving⟩
  | beginDownload (s : GateState) (i : Nat)
      (hp : s.tasks.get? i = some TaskPhase.resolving) :
      GateStep s ⟨s.avail, s.tasks.set i TaskPhase.downloading⟩
  | release (s : GateState) (i : Nat) (a : TaskPhase)
      (hp : s.tasks.get? i = some a) (hh : holdsLease a = true) :
      GateStep s ⟨s.avail + 1, s.tasks.set i TaskPhase.released⟩

/-- Initial pool state: semaphore counter at the configured concurrency
`C`, all `n` launched tasks pending. -/
def initGate (C n : Nat) : GateState :=
  ⟨C, List.replicate n TaskPhase.pending⟩

/-- States reachable by interleaving the tasks' gate steps from the
initial state. -/
inductive GateReachable (C n : Nat) : GateState → Prop where
  | init : GateReachable C n (initGate C n)
  | step {s t : GateState} (hs : GateReachable C n s) (hst : GateStep s t) :
      GateReachable C n t

/-- Number of tasks currently holding a lease (resolving or
downloading). -/
def activeCount (s : GateState) : Nat := s.tasks.countP holdsLease

/-- Timestamped message stream consumed by the `downloader_info`
coroutine; the rational is the value `time.time()` would return while
that message is processed. -/
abbrev MsgTrace := List (Message × ℚ)

/-- Local state of the `downloader_info` coroutine's main loop
(casyncio.py lines 76-121). -/
structure AggState where
  currentSize : Nat
  wheelChanged : Bool
  wheelPos : Char
  finishedFiles : Nat
  numberOfFiles : Nat
  startTime : ℚ
  doneFlag : Bool
deriving DecidableEq

/-- One overwritten status line printed by `downloader_info`: the spinner
symbol, the completed/total counters, and the throughput inputs
`current_size` and `elapsed_time` (the printed speed is
`bytes / elapsed`, then unit-formatted by `format_size`). -/
structure Render where
  wheelSym : Char
  finishedCount : Nat
  totalCount : Nat
  bytes : Nat
  elapsed : ℚ
deriving DecidableEq

/-- The per-message state update of the main loop's `isinstance` chain
(casyncio.py lines 91-108), before the render/reset logic. -/
def agg_apply (s : AggState) (m : Message) : AggState :=
  match m with
  | Message.process n => {s with currentSize := s.currentSize + n}
  | Message.wheel c => {s with wheelPos := c, wheelChanged := true}
  | Message.finished _ _ => {s with finishedFiles := s.finishedFiles + 1}
  | Message.skipped _ => {s with finishedFiles := s.finishedFiles + 1}
  | Message.doneMsg n =>
    {s with currentSize := s.currentSize + n, doneFlag := true}
  | Message.initialMsg _ => s

/-- Number of bytes a message adds to `current_size`. -/
def msgSize : Message → Nat
  | Message.process n => n
  | Message.doneMsg n => n
  | _ => 0

/-- Processing of one received message in the main loop of
`downloader_info` (casyncio.py lines 90-121): update the state, then, when
the wheel moved or `elapsed_time >= 2` or the session is done, print the
status line from the updated counters and the elapsed time, and reset the
throughput window (counter to `0`, clock to now) exactly when
`elapsed_time >= 2`. -/
def agg_step (s : AggState) (m : Message) (t : ℚ) :
    AggState × Option Render :=
  let s1 := agg_apply s m
  let elapsed := t - s.startTime
  if s1.wheelChanged || decide (2 ≤ elapsed) || s1.doneFlag then
    ({(if 2 ≤ elapsed then {s1 with startTime := t, currentSize := 0}
       else s1) with wheelChanged := false},
     some ⟨s1.wheelPos, s1.finishedFiles, s1.numberOfFiles,
       s1.currentSize, elapsed⟩)
  else (s1, none)

/-- Runs the main loop of `downloader_info` over a timestamped message
stream, collecting the printed status lines and the final state.  After
`DoneMessage` sets `done`, the coroutine has returned, so any further
`send` raises `StopIteration`, which `send_message` swallows: later
messages are dropped. -/
def agg_run (s : AggState) : MsgTrace → List Render × AggState
  | [] => ([], s)
  | (m, t) :: rest =>
    if s.doneFlag then agg_run s rest
    else
      ((agg_step s m t).2.toList ++ (agg_run (agg_step s m t).1 rest).1,
       (agg_run (agg_step s m t).1 rest).2)

/-- State of the main loop right after the initial phase consumed
`InitialMessage n` at time `t` (casyncio.py lines 77-88): counters zero,
wheel at `-`, and `start_time` taken at that moment. -/
def initAggState (n : Nat) (t : ℚ) : AggState :=
  ⟨0, false, '-', 0, n, t, false⟩

/-- The whole `downloader_info` coroutine (casyncio.py lines 75-121) over
a timestamped message stream: the first loop discards every message until
an `InitialMessage` arrives, then the main loop runs. -/
def downloader_info : MsgTrace → List Render
  | [] => []
  | (m, t) :: rest =>
    match m with
    | Message.initialMsg k => (agg_run (initAggState k t) rest).1
    | _ => downloader_info rest

/-- Recognizer for `InitialMessage`. -/
def isInitialMsg : Message → Bool
  | Message.initialMsg _ => true
  | _ => false

/-- Recognizer for `DoneMessage`. -/
def isDoneMsg : Message → Bool
  | Message.doneMsg _ => true
  | _ => false

/-- Total `current_size` contribution of a timestamped message stream. -/
def windowSum (tr : MsgTrace) : Nat := (tr.map fun p => msgSize p.1).sum

/-- C1 counterexample: the destination file exists (first argument
`true`, on-disk size 10) and the `Content-Length` header is present but
not numeric (`"abc"`), which the claim calls an unknown expected size and
says is skipped; `check_filename` nevertheless returns `true`
(download). -/
theorem check_filename_claim_counterexample :
    check_filename true 10 (some ("abc".data)) = true ∧
    str_isdigit ("abc".data) = false := by decide

/-- C1 (amended): `check_filename` decides skip (returns `false`) exactly
when the file exists and the `Content-Length` header is either absent or
a numeric string equal to the on-disk size; a present but non-numeric
`Content-Length` on an existing file forces a download, as does a numeric
one that differs from the on-disk size or a missing file. -/
theorem check_filename_skip_iff (ex : Bool) (sz : Nat)
    (cl : Option (List Char)) :
    check_filename ex sz cl = false ↔
      ex = true ∧ (cl = none ∨
        ∃ s, cl = some s ∧ str_isdigit s = true ∧ str_toNat s = sz) := by
  cases ex with
  | false => simp [check_filename]
  | true =>
    cases cl with
    | none => simp [check_filename]
    | some s =>
      by_cases hd : str_isdigit s
      · simp [check_filename, hd, bne_eq_false_iff_eq]
        constructor
        · intro h; exact h.symm
        · intro h; exact h.symm
      · simp [check_filename, hd]

/-- A probe response with an error status: 404, no redirect, but a
well-formed `Content-Disposition` and a `Content-Length`. -/
def probe404 : ProbeResponse :=
  ⟨404, none, some ("attachment; filename=\"a.pdf\"".data),
    some ("999".data)⟩

/-- A run whose single probe returns `probe404` while the destination
file already exists with the advertised size. -/
def c2Input : TaskInput :=
  { url := ("http://h/x".data), probes := [some probe404],
    fileExists := true, fileSize := 999, openOk := true,
    dlStatus := 200, ending := StreamEnd.eofData, chunks := [] }

/-- C2: the probe response has status `>= 400`, yet resolution does not
abort: `_get_file_data` returns the headers in both branches of its
status test (casyncio.py lines 184-187), so `_get_file_name` still
derives the filename `a.pdf` from the 404 response, and the task goes on
to the skip check and emits a `SkippedMessage` to the aggregator —
contradicting the claimed `ResolutionFailed` silent abort. -/
theorem probe_error_does_not_abort :
    400 ≤ probe404.status ∧
    get_file_name c2Input.url [some probe404] =
      ResolveOutcome.resolved ("a.pdf".data) (some ("999".data))
        c2Input.url ∧
    task_events c2Input = [Message.skipped ("a.pdf".data)] := by decide

/-- A redirect-free OK response carrying a quoted filename parameter. -/
def probeNotes : ProbeResponse :=
  ⟨200, none, some ("attachment; filename=\"notes.pdf\"".data),
    some ("10".data)⟩

/-- A response whose filename parameter contains a percent escape. -/
def probeNotesPct : ProbeResponse :=
  ⟨200, none, some ("attachment; filename=\"my%20notes.pdf\"".data), none⟩

/-- A response with neither `Location` nor `Content-Disposition`. -/
def probePlain : ProbeResponse := ⟨200, none, none, some ("1000".data)⟩

/-- C6: filename resolution on a final (non-redirect) response.  With a
`Content-Disposition` of `attachment; filename="notes.pdf"` the resolved
filename is exactly `notes.pdf` (quotes stripped), percent escapes are
URL-decoded (`my%20notes.pdf` resolves to `my notes.pdf`), and a URL
ending in `/` with no `Content-Disposition` yields no filename.  But in
the remaining case — no `Content-Disposition` and a URL not ending in
`/` — the claimed fallback to the URL path's final segment never
happens: casyncio.py lines 215-216 apply `posixpath.basename` to the
whole `urllib.parse.urlsplit(self.url)` tuple instead of its `path`
component, which raises, so the task crashes instead of resolving
`b.mp4`. -/
theorem filename_resolution_cases :
    get_file_name ("http://h/a/x".data) [some probeNotes] =
      ResolveOutcome.resolved ("notes.pdf".data) (some ("10".data))
        ("http://h/a/x".data) ∧
    get_file_name ("http://h/a/x".data) [some probeNotesPct] =
      ResolveOutcome.resolved ("my notes.pdf".data) none
        ("http://h/a/x".data) ∧
    get_file_name ("http://h/a/".data) [some probePlain] =
      ResolveOutcome.noFile ("http://h/a/".data) ∧
    get_file_name ("http://h/a/b.mp4".data) [some probePlain] =
      ResolveOutcome.crashed := by decide

/-- C7: for a finite redirect chain — the first `k` probe responses
(`hops`) each carry a `Location` header and the next response `f`
carries none — `_get_file_name` terminates after following exactly those
`k` hops (any further oracle entries `rest` are never consulted), and the
result is computed by `finish_resolve` from the final response `f` and
the final URL (the last `Location`) alone, so the filename and expected
size come from the final response's headers and URL only. -/
theorem resolve_redirect_chain (url : List Char) (hops : List ProbeResponse)
    (f : ProbeResponse) (rest : List (Option ProbeResponse))
    (hh : hops.all (fun r => r.location.isSome) = true)
    (hf : f.location = none) :
    get_file_name url (hops.map some ++ some f :: rest) =
      finish_resolve (chainUrl url hops) f := by
  induction hops generalizing url with
  | nil =>
    simp [chainUrl, get_file_name, hf]
  | cons r rs ih =>
    simp only [List.all_cons, Bool.and_eq_true] at hh
    obtain ⟨loc, hloc⟩ := Option.isSome_iff_exists.mp hh.1
    simp only [List.map_cons, List.cons_append, get_file_name, hloc, chainUrl,
      List.foldl_cons, Option.getD_some]
    exact ih loc hh.2

/-- A redirect hop pointing at `http://h/2`. -/
def hopA : ProbeResponse := ⟨302, some ("http://h/2".data), none, none⟩

/-- The final response of the witness chain. -/
def finB : ProbeResponse :=
  ⟨200, none, some ("attachment; filename=\"v.mp4\"".data),
    some ("7".data)⟩

/-- C7 witness: a one-hop chain `hopA` then `finB` (plus an extra unused
oracle entry) resolves to `v.mp4` with expected size `7` at the
redirected URL. -/
theorem resolve_redirect_chain_witness :
    get_file_name ("http://h/1".data)
        ([hopA].map some ++ some finB :: [none]) =
      ResolveOutcome.resolved ("v.mp4".data) (some ("7".data))
        ("http://h/2".data) :=
  (resolve_redirect_chain ("http://h/1".data) [hopA] finB [none]
    (by decide) (by decide)).trans (by decide)

/-- Trace and result of the streamer loop on a stream of non-empty
chunks that does not end in a generic failure: each chunk contributes a
completed write immediately followed by its progress message, one extra
trailing progress message carries the last chunk's size (the final value
of `current_size`, `cur` initially), and the returned total is the sum
of the chunk sizes. -/
theorem download_loop_eq (ending : StreamEnd)
    (hend : ending ≠ StreamEnd.failure) :
    ∀ (cs : List (List Nat)) (size cur : Nat),
      cs.all (fun c => !c.isEmpty) = true →
      download_loop ending cs size cur =
        (some (size + chunksSum cs),
         chunkPairs cs ++
           [StreamAct.emit (((cs.getLast?).map List.length).getD cur)]) := by
  intro cs
  induction cs with
  | nil =>
    intro size cur _
    cases ending with
    | failure => exact absurd rfl hend
    | eofData => simp [download_loop, chunksSum, chunkPairs]
    | eofStream => simp [download_loop, chunksSum, chunkPairs]
  | cons c cs ih =>
    intro size cur hall
    simp only [List.all_cons, Bool.and_eq_true, Bool.not_eq_true'] at hall
    have hc : c.isEmpty = false := hall.1
    have := ih (size + c.length) c.length hall.2
    simp only [download_loop, hc, Bool.false_eq_true, if_false, this]
    cases cs with
    | nil => simp [chunksSum, chunkPairs, Nat.add_assoc]
    | cons d ds =>
      have hg := List.getLast?_eq_getLast_of_ne_nil
        (List.cons_ne_nil d ds)
      simp [chunksSum, chunkPairs, Nat.add_assoc, hg]

/-- C4 counterexample: a single non-empty two-byte chunk produces two
`ProcessMessage` emissions, not exactly one per non-empty chunk: the
loop in `_download_file` sends one message per chunk and then repeats
the last `current_size` in an extra `send_message` after the loop
(casyncio.py line 268). -/
theorem single_chunk_double_emit :
    (download_file 200 StreamEnd.eofData [[7, 8]]).2 =
      [StreamAct.write 2, StreamAct.emit 2, StreamAct.emit 2] ∧
    ([[7, 8]] : List (List Nat)).length = 1 := by decide

/-- C4 (amended): for a body GET with status `< 400` and a stream of
non-empty chunks ending in end-of-data, `_download_file` emits exactly
one `BytesWritten`-style `ProcessMessage(chunkSize)` per chunk, each
immediately after that chunk's write returns, plus one extra trailing
`ProcessMessage` repeating the last chunk's size (`0` when there are no
chunks), and returns the sum of the sizes of all chunks written. -/
theorem download_file_trace (st : Nat) (ending : StreamEnd)
    (cs : List (List Nat)) (hst : st < 400)
    (hend : ending ≠ StreamEnd.failure)
    (hcs : cs.all (fun c => !c.isEmpty) = true) :
    download_file st ending cs =
      (some (chunksSum cs),
       chunkPairs cs ++ [StreamAct.emit (lastLen cs)]) := by
  have h400 : ¬ 400 ≤ st := Nat.not_le.mpr hst
  simp only [download_file, h400, if_false]
  have := download_loop_eq ending hend cs 0 0 hcs
  simpa [lastLen] using this

/-- C4 witness: two chunks of sizes 1 and 2 produce the write/emit pair
for each chunk plus the trailing repeated emission, and return 3. -/
theorem download_file_trace_witness :
    download_file 200 StreamEnd.eofData [[5], [6, 7]] =
      (some 3,
       [StreamAct.write 1, StreamAct.emit 1, StreamAct.write 2,
        StreamAct.emit 2, StreamAct.emit 2]) :=
  (download_file_trace 200 StreamEnd.eofData [[5], [6, 7]] (by decide)
    (by decide) (by decide)).trans (by decide)

/-- Returned value of the streamer loop on non-empty chunks: `none`
exactly when the stream ends in a generic failure, otherwise the running
total (end-of-data and `EofStream` are handled alike). -/
theorem download_loop_fst (ending : StreamEnd) :
    ∀ (cs : List (List Nat)) (size cur : Nat),
      cs.all (fun c => !c.isEmpty) = true →
      (download_loop ending cs size cur).1 =
        if ending = StreamEnd.failure then none
        else some (size + chunksSum cs) := by
  intro cs
  induction cs with
  | nil =>
    intro size cur _
    cases ending <;> simp [download_loop, chunksSum]
  | cons c cs ih =>
    intro size cur hall
    simp only [List.all_cons, Bool.and_eq_true, Bool.not_eq_true'] at hall
    simp only [download_loop, hall.1, Bool.false_eq_true, if_false]
    rw [ih (size + c.length) c.length hall.2]
    cases ending <;> simp [chunksSum, Nat.add_assoc]

/-- Returned value of `_download_file`: `none` on an error status or a
generic stream failure, otherwise the total byte count. -/
theorem download_file_fst (st : Nat) (ending : StreamEnd)
    (cs : List (List Nat))
    (hcs : cs.all (fun c => !c.isEmpty) = true) :
    (download_file st ending cs).1 =
      if 400 ≤ st then none
      else if ending = StreamEnd.failure then none
      else some (chunksSum cs) := by
  by_cases h : 400 ≤ st
  · simp [download_file, h]
  · simp only [download_file, h, if_false]
    simpa using download_loop_fst ending cs 0 0 hcs

/-- Filtering the finished messages distributes over append. -/
theorem finishedMsgs_append (a b : List Message) :
    finishedMsgs (a ++ b) = finishedMsgs a ++ finishedMsgs b :=
  List.filter_append _ _

/-- Streamer progress messages contain no `FinishedMessage`. -/
theorem finishedMsgs_actionMsgs (tr : List StreamAct) :
    finishedMsgs (actionMsgs tr) = [] := by
  induction tr with
  | nil => rfl
  | cons a tl ih => cases a <;> simpa [actionMsgs, finishedMsgs] using ih

/-- A run that resolves `z.bin`, passes the skip check, opens the file,
and reads an empty body: the streamer reaches end-of-data with 0 bytes. -/
def c5ZeroInput : TaskInput :=
  { url := ("http://h/z".data),
    probes := [some ⟨200, none,
      some ("attachment; filename=\"z.bin\"".data), none⟩],
    fileExists := false, fileSize := 0, openOk := true,
    dlStatus := 200, ending := StreamEnd.eofData, chunks := [] }

/-- The same run except the stream aborts with `aiohttp.EofStream` after
one two-byte chunk. -/
def c5EofInput : TaskInput :=
  { url := ("http://h/z".data),
    probes := [some ⟨200, none,
      some ("attachment; filename=\"z.bin\"".data), none⟩],
    fileExists := false, fileSize := 0, openOk := true,
    dlStatus := 200, ending := StreamEnd.eofStream, chunks := [[1, 2]] }

/-- C5 counterexample: a streamer that reaches end-of-data after writing
0 bytes emits no `FinishedMessage` (the claim demands exactly one,
carrying 0), because `start` guards the emission with `if bytes:`
(casyncio.py line 242) and `0` is falsy; and a stream aborted mid-flight
by `EofStream` after 2 bytes does emit `Finished(z.bin, 2)` (the claim
demands none), because `_download_file` catches `EofStream` and returns
the partial size (casyncio.py lines 270-272). -/
theorem finished_claim_counterexample :
    task_events c5ZeroInput = [Message.process 0] ∧
    task_events c5EofInput =
      [Message.process 2, Message.process 2,
       Message.finished ("z.bin".data) 2] := by decide

/-- C5 (amended): on a run that resolves a filename, decides to
download, and opens the file, a `FinishedMessage` is emitted iff the
body GET status is `< 400`, the stream ends by end-of-data or
`EofStream` (not a generic error), and the byte total is nonzero;
exactly one such message is then emitted and it carries the total number
of bytes written. -/
theorem finished_iff_stream_completed (inp : TaskInput) (fn : List Char)
    (cl : Option (List Char)) (fu : List Char)
    (hres : get_file_name inp.url inp.probes =
      ResolveOutcome.resolved fn cl fu)
    (hdl : check_filename inp.fileExists inp.fileSize cl = true)
    (hopen : inp.openOk = true)
    (hcs : inp.chunks.all (fun c => !c.isEmpty) = true) :
    finishedMsgs (task_events inp) =
      if 400 ≤ inp.dlStatus ∨ inp.ending = StreamEnd.failure ∨
          chunksSum inp.chunks = 0 then []
      else [Message.finished fn (chunksSum inp.chunks)] := by
  unfold task_events
  rw [hres]
  simp only [hdl, hopen, Bool.true_eq_false, if_false]
  rw [finishedMsgs_append, finishedMsgs_actionMsgs, List.nil_append]
  rw [download_file_fst inp.dlStatus inp.ending inp.chunks hcs]
  by_cases h1 : 400 ≤ inp.dlStatus
  · simp [h1, finishedMsgs]
  · by_cases h2 : inp.ending = StreamEnd.failure
    · simp [h1, h2, finishedMsgs]
    · by_cases h3 : chunksSum inp.chunks = 0
      · simp [h1, h2, h3, finishedMsgs]
      · simp [h1, h2, h3, finishedMsgs]

/-- A successful two-chunk run resolving `w.bin`. -/
def c5WitnessInput : TaskInput :=
  { url := ("http://h/f".data),
    probes := [some ⟨200, none,
      some ("attachment; filename=\"w.bin\"".data), none⟩],
    fileExists := false, fileSize := 0, openOk := true,
    dlStatus := 200, ending := StreamEnd.eofData, chunks := [[4], [5]] }

/-- C5 witness: the successful run emits exactly one `FinishedMessage`,
carrying the 2 bytes written. -/
theorem finished_iff_stream_completed_witness :
    finishedMsgs (task_events c5WitnessInput) =
      [Message.finished ("w.bin".data) 2] :=
  (finished_iff_stream_completed c5WitnessInput ("w.bin".data) none
    c5WitnessInput.url (by decide) (by decide) rfl (by decide)).trans
    (by decide)

/-- Streamer progress messages contain no terminal message. -/
theorem filter_isTerminal_actionMsgs (tr : List StreamAct) :
    (actionMsgs tr).filter isTerminal = [] := by
  induction tr with
  | nil => rfl
  | cons a tl ih => cases a <;> simpa [actionMsgs, isTerminal] using ih

/-- C9: one run of `FileDownloader.start` emits at most one terminal
progress event (`SkippedMessage` or `FinishedMessage`) to the
aggregator, whatever the probe oracle, file state, and stream behaviour:
either exactly one `Skipped`, or exactly one `Finished`, or none (silent
failure) — never both. -/
theorem task_terminal_at_most_one (inp : TaskInput) :
    ((task_events inp).filter isTerminal).length ≤ 1 := by
  unfold task_events
  cases hres : get_file_name inp.url inp.probes with
  | resolved fn cl fu =>
    dsimp only
    by_cases hskip : check_filename inp.fileExists inp.fileSize cl = false
    · rw [if_pos hskip]
      simp [isTerminal]
    · rw [if_neg hskip]
      by_cases hopen : inp.openOk = false
      · rw [if_pos hopen]
        simp
      · rw [if_neg hopen]
        simp only [List.filter_append, filter_isTerminal_actionMsgs,
          List.nil_append]
        cases hfst :
            (download_file inp.dlStatus inp.ending inp.chunks).1 with
        | none => simp
        | some b =>
          by_cases hb : b = 0
          · simp [hb]
          · simp [hb, isTerminal]
  | noFile u => simp
  | probeFailed => simp
  | crashed => simp

/-- Effect of writing one position of a list on `countP`. -/
theorem countP_set_eq {α : Type} (p : α → Bool) :
    ∀ (l : List α) (i : Nat) (a b : α), l.get? i = some a →
      (l.set i b).countP p + (if p a then 1 else 0) =
        l.countP p + (if p b then 1 else 0) := by
  intro l
  induction l with
  | nil => intro i a b h; simp at h
  | cons x xs ih =>
    intro i a b h
    cases i with
    | zero =>
      simp only [List.get?_cons_zero, Option.some.injEq] at h
      subst h
      simp [List.countP_cons]
      omega
    | succ j =>
      simp only [List.get?_cons_succ] at h
      have := ih j a b h
      simp [List.countP_cons]
      omega

/-- Counting a predicate that fails on the replicated element. -/
theorem countP_replicate_false {α : Type} (p : α → Bool) (a : α)
    (hp : p a = false) (n : Nat) :
    (List.replicate n a).countP p = 0 := by
  induction n with
  | zero => simp
  | succ k ih => simp [List.replicate_succ, List.countP_cons, hp, ih]

/-- Semaphore accounting invariant: in every reachable pool state, the
number of lease-holding tasks plus the semaphore counter equals the
configured capacity. -/
theorem gate_invariant {C n : Nat} {s : GateState}
    (h : GateReachable C n s) : activeCount s + s.avail = C := by
  induction h with
  | init =>
    simp [initGate, activeCount, countP_replicate_false holdsLease
      TaskPhase.pending rfl n]
  | @step s t hs hst ih =>
    cases hst with
    | acquire i hp ha =>
      have hc := countP_set_eq holdsLease s.tasks i TaskPhase.pending
        TaskPhase.resolving hp
      simp [holdsLease] at hc
      simp only [activeCount] at ih ⊢
      omega
    | beginDownload i hp =>
      have hc := countP_set_eq holdsLease s.tasks i TaskPhase.resolving
        TaskPhase.downloading hp
      simp [holdsLease] at hc
      simp only [activeCount] at ih ⊢
      omega
    | release i a hp hh =>
      have hc := countP_set_eq holdsLease s.tasks i a TaskPhase.released hp
      rw [hh] at hc
      simp [holdsLease] at hc
      simp only [activeCount] at ih ⊢
      omega

/-- C3: with gate capacity `C`, however many tasks are launched and
however their acquire/progress/release steps interleave, at most `C`
tasks hold a Capacity Gate lease (are in the `Resolving` or
`Downloading` state) in any reachable state. -/
theorem gate_active_le_capacity (C n : Nat) (s : GateState)
    (h : GateReachable C n s) : activeCount s ≤ C := by
  have := gate_invariant h
  omega

/-- C3 witness: with capacity 1 and two tasks, after task 0 acquires the
lease, the reachable state has one active task, which is at most the
capacity. -/
theorem gate_active_le_capacity_witness :
    activeCount ⟨0, [TaskPhase.resolving, TaskPhase.pending]⟩ ≤ 1 :=
  gate_active_le_capacity 1 2 _
    (GateReachable.step GateReachable.init
      (GateStep.acquire (initGate 1 2) 0 (by decide) (by decide)))

/-- The per-message update never touches the window clock. -/
theorem agg_apply_startTime (s : AggState) (m : Message) :
    (agg_apply s m).startTime = s.startTime := by
  cases m <;> rfl

/-- The per-message update adds exactly the message's byte size to
`current_size`. -/
theorem agg_apply_currentSize (s : AggState) (m : Message) :
    (agg_apply s m).currentSize = s.currentSize + msgSize m := by
  cases m <;> simp [agg_apply, msgSize]

/-- Only `DoneMessage` sets the done flag. -/
theorem agg_apply_doneFlag (s : AggState) (m : Message)
    (h : isDoneMsg m = false) :
    (agg_apply s m).doneFlag = s.doneFlag := by
  cases m <;> simp_all [agg_apply, isDoneMsg]

/-- Every status line printed by one processing step reports the bytes
accumulated in the current window (including this message's
contribution) and the elapsed time since the window clock started. -/
theorem agg_step_render (s : AggState) (m : Message) (t : ℚ) (r : Render)
    (hr : (agg_step s m t).2 = some r) :
    r.bytes = s.currentSize + msgSize m ∧ r.elapsed = t - s.startTime := by
  simp only [agg_step] at hr
  split at hr
  · cases hr
    exact ⟨agg_apply_currentSize s m, rfl⟩
  · exact Option.noConfusion hr

/-- When the elapsed time has reached 2 seconds, the processing step
renders a line and resets the window: byte counter to `0`, window clock
to now. -/
theorem agg_step_reset (s : AggState) (m : Message) (t : ℚ)
    (h2 : 2 ≤ t - s.startTime) :
    (agg_step s m t).1.currentSize = 0 ∧
    (agg_step s m t).1.startTime = t ∧
    ((agg_step s m t).2).isSome = true := by
  simp only [agg_step]
  have hb : decide (2 ≤ t - s.startTime) = true := decide_eq_true h2
  simp [hb, h2]

/-- Before the 2-second boundary no reset happens: the clock is kept and
the byte counter just accumulates the message's size. -/
theorem agg_step_no_reset (s : AggState) (m : Message) (t : ℚ)
    (h2 : t - s.startTime < 2) :
    (agg_step s m t).1.startTime = s.startTime ∧
    (agg_step s m t).1.currentSize = s.currentSize + msgSize m := by
  simp only [agg_step]
  have h2' : ¬ (2 : ℚ) ≤ t - s.startTime := not_le.mpr h2
  have hb : decide (2 ≤ t - s.startTime) = false := decide_eq_false h2'
  split
  · simp [h2', agg_apply_startTime, agg_apply_currentSize]
  · simp [agg_apply_startTime, agg_apply_currentSize]

/-- A processing step for a non-`DoneMessage` preserves the done flag. -/
theorem agg_step_doneFlag (s : AggState) (m : Message) (t : ℚ)
    (h : isDoneMsg m = false) :
    (agg_step s m t).1.doneFlag = s.doneFlag := by
  simp only [agg_step]
  split
  · split <;> simp [agg_apply_doneFlag s m h]
  · simp [agg_apply_doneFlag s m h]

/-- Over a stretch of messages that stays inside the 2-second window, the
byte counter accumulates exactly the messages' sizes and the window
clock never moves: `current_size` is the sum of the bytes reported since
the window began. -/
theorem agg_run_window (s : AggState) (tr : MsgTrace)
    (hdone : s.doneFlag = false)
    (htr : tr.all (fun p => decide (p.2 - s.startTime < 2) &&
      !isDoneMsg p.1) = true) :
    (agg_run s tr).2.currentSize = s.currentSize + windowSum tr ∧
    (agg_run s tr).2.startTime = s.startTime := by
  induction tr generalizing s with
  | nil => simp [agg_run, windowSum]
  | cons p ps ih =>
    obtain ⟨m, t⟩ := p
    simp only [List.all_cons, Bool.and_eq_true, Bool.not_eq_true',
      decide_eq_true_eq] at htr
    obtain ⟨⟨hlt, hnd⟩, hps⟩ := htr
    have hst := agg_step_no_reset s m t hlt
    have hdone' : (agg_step s m t).1.doneFlag = false :=
      (agg_step_doneFlag s m t hnd).trans hdone
    have hps' : ps.all (fun p => decide
        (p.2 - (agg_step s m t).1.startTime < 2) &&
        !isDoneMsg p.1) = true := by
      rw [hst.1]
      exact hps
    have ihr := ih (agg_step s m t).1 hdone' hps'
    simp only [agg_run, hdone, Bool.false_eq_true, if_false]
    constructor
    · rw [ihr.1, hst.2]
      simp [windowSum]
      omega
    · rw [ihr.2, hst.1]

/-- C8: the rendered throughput of `downloader_info` equals the bytes
accumulated in the current window divided by the elapsed window time,
and the window resets (byte counter to 0, clock to now) at every
processing step where the elapsed time has reached 2 seconds, whatever
message — including `FinishedMessage` or `SkippedMessage` — arrived in
that step; below the boundary the clock is kept and the counter is
exactly the sum of the byte sizes reported since the window began. -/
theorem agg_window_correct :
    (∀ (s : AggState) (m : Message) (t : ℚ) (r : Render),
        (agg_step s m t).2 = some r →
        r.bytes = s.currentSize + msgSize m ∧
        r.elapsed = t - s.startTime ∧
        (r.bytes : ℚ) / r.elapsed =
          ((s.currentSize + msgSize m : ℕ) : ℚ) / (t - s.startTime)) ∧
    (∀ (s : AggState) (m : Message) (t : ℚ), 2 ≤ t - s.startTime →
        (agg_step s m t).1.currentSize = 0 ∧
        (agg_step s m t).1.startTime = t ∧
        ((agg_step s m t).2).isSome = true) ∧
    (∀ (s : AggState) (m : Message) (t : ℚ), t - s.startTime < 2 →
        (agg_step s m t).1.startTime = s.startTime ∧
        (agg_step s m t).1.currentSize = s.currentSize + msgSize m) ∧
    (∀ (s : AggState) (tr : MsgTrace), s.doneFlag = false →
        tr.all (fun p => decide (p.2 - s.startTime < 2) &&
          !isDoneMsg p.1) = true →
        (agg_run s tr).2.currentSize = s.currentSize + windowSum tr ∧
        (agg_run s tr).2.startTime = s.startTime) := by
  refine ⟨?_, fun s m t h => agg_step_reset s m t h,
    fun s m t h => agg_step_no_reset s m t h,
    fun s tr h1 h2 => agg_run_window s tr h1 h2⟩
  intro s m t r hr
  obtain ⟨h1, h2⟩ := agg_step_render s m t r hr
  refine ⟨h1, h2, ?_⟩
  rw [h1, h2]

/-- C8 witness: from a fresh session (total 5, clock 0), processing
`ProcessMessage 100` at time 3 crosses the boundary and resets the
window (counter 0, clock 3); and a `ProcessMessage 7` at time 1 stays in
the window, leaving the counter at the window's byte sum. -/
theorem agg_window_correct_witness :
    (agg_step (initAggState 5 0) (Message.process 100) 3).1.currentSize
        = 0 ∧
    (agg_step (initAggState 5 0) (Message.process 100) 3).1.startTime
        = 3 ∧
    (agg_run (initAggState 5 0) [(Message.process 7, 1)]).2.currentSize
        = (initAggState 5 0).currentSize +
            windowSum [(Message.process 7, 1)] := by
  refine ⟨?_, ?_, ?_⟩
  · exact (agg_window_correct.2.1 (initAggState 5 0) (Message.process 100)
      3 (by norm_num [initAggState])).1
  · exact (agg_window_correct.2.1 (initAggState 5 0) (Message.process 100)
      3 (by norm_num [initAggState])).2.1
  · exact (agg_window_correct.2.2.2 (initAggState 5 0)
      [(Message.process 7, 1)] rfl
      (by norm_num [initAggState, isDoneMsg])).1

/-- C10: every message delivered before the first `InitialMessage` is
silently discarded — the run over `pre ++ InitialMessage :: rest`
produces exactly the output of the main loop started fresh on `rest`,
with no output for `pre` and no state carried from it — and the
throughput window clock starts at the `InitialMessage`'s arrival time. -/
theorem pre_initial_discarded (pre rest : MsgTrace) (n : Nat) (t : ℚ)
    (h : pre.all (fun p => !isInitialMsg p.1) = true) :
    downloader_info (pre ++ (Message.initialMsg n, t) :: rest) =
      (agg_run (initAggState n t) rest).1 ∧
    (initAggState n t).startTime = t := by
  refine ⟨?_, rfl⟩
  induction pre with
  | nil => simp [downloader_info]
  | cons p ps ih =>
    obtain ⟨m, tm⟩ := p
    simp only [List.all_cons, Bool.and_eq_true, Bool.not_eq_true'] at h
    cases m <;> simp_all [downloader_info, isInitialMsg] <;> exact ih h

/-- C10 witness: a `ProcessMessage` arriving before the
`InitialMessage` is discarded, and the window clock starts at the
`InitialMessage`'s time 1. -/
theorem pre_initial_discarded_witness :
    downloader_info [(Message.process 3, 0), (Message.initialMsg 2, 1)] =
      (agg_run (initAggState 2 1) []).1 ∧
    (initAggState 2 1).startTime = 1 :=
  pre_initial_discarded [(Message.process 3, 0)] [] 2 1 (by decide)
